import Mathlib

/-!
Verification development for the batch address-validation / address-recognition
core of the fastapi-boilerplate repository.

The Python services (app/services/address_validation.py and
app/services/address_recognition.py), the requeue endpoint
(app/api/v1/endpoints/addresses.py) and the worker jobs (app/workers/jobs.py)
are shallowly embedded below.  Conventions of the embedding:

* Python strings are lists of code points (PyStr, a list of Nat).  The casing
  and whitespace rules are the ASCII rules, which is what every string constant
  and rule in the source exercises.
* JSON / dict values are the inductive Val (string, int, null, nested dict);
  a dict is an insertion-ordered association list with unique keys, so dict
  iteration is a map over the list, key lookup is first-match lookup, and
  key assignment overwrites in place (or appends when the key is absent).
* Pydantic models become structures; model_validate becomes a total function
  into Option (none = ValidationError raised); model_dump emits the fields in
  declaration order, which is how pydantic serializes a model.
* A database transaction commits atomically or rolls back.  The two Process
  functions are embedded as functions from the single-batch view of the store
  (the batch row plus this batch's items) to the list of committed snapshots
  produced by each commit that the call executes, plus a flag recording
  whether an exception escaped the call.  Row ids and timestamps are omitted;
  the item list order is insertion order, which is the created_at order used
  by every reader.
-/

/-! ### Python string primitives (ASCII casing / whitespace model) -/

/-- A Python string, as its list of code points. -/
abbrev PyStr := List Nat

/-- Code points of a Lean string literal, for writing PyStr constants. -/
def pys (s : String) : PyStr := s.toList.map Char.toNat

/-- Python str.strip whitespace test (space, tab, newline, CR, VT, FF). -/
def isSp (c : Nat) : Bool := decide (c = 32 ∨ c = 9 ∨ c = 10 ∨ c = 13 ∨ c = 11 ∨ c = 12)

/-- Python str.upper on one code point (ASCII rule). -/
def upChar (c : Nat) : Nat := if 97 ≤ c ∧ c ≤ 122 then c - 32 else c

/-- Python str.lower on one code point (ASCII rule). -/
def lowChar (c : Nat) : Nat := if 65 ≤ c ∧ c ≤ 90 then c + 32 else c

/-- Python str.upper. -/
def pyUpper (s : PyStr) : PyStr := s.map upChar

/-- Python str.lower. -/
def pyLower (s : PyStr) : PyStr := s.map lowChar

/-- Drop trailing whitespace. -/
def dropEnd (s : PyStr) : PyStr := (s.reverse.dropWhile isSp).reverse

/-- Python str.strip: drop leading and trailing whitespace. -/
def pyStrip (s : PyStr) : PyStr := dropEnd (s.dropWhile isSp)

/-! ### JSON values and dicts -/

/-- A JSON value as stored in the request_payload / item columns: a string,
an int, null, or a nested object. -/
inductive Val where
  | vstr : PyStr → Val
  | vint : Int → Val
  | vnone : Val
  | vdict : List (String × Val) → Val

/-- A Python dict with string keys: insertion-ordered association list. -/
abbrev Record := List (String × Val)

/-- Dict key lookup (dict.get / the in operator); first match. -/
def getVal : Record → String → Option Val
  | [], _ => none
  | p :: rest, k => if p.1 = k then some p.2 else getVal rest k

/-- Dict assignment d[k] = v for a key already present: overwrite in place. -/
def setKey (r : Record) (k : String) (v : Val) : Record :=
  r.map (fun p => if p.1 = k then (k, v) else p)

/-- The address_residential_indicator field name. -/
def ariKey : String := "address_residential_indicator"

/-- The three allowed residential-indicator strings. -/
def uStr : PyStr := pys "unknown"

/-- The string yes. -/
def yStr : PyStr := pys "yes"

/-- The string no. -/
def nStr : PyStr := pys "no"

/-! ### NormalizationEngine: AddressValidationService._normalize
(app/services/address_validation.py lines 18-47) -/

/-- The per-field transform applied by _normalize to a string value:
strip, then the key-specific casing rule. -/
def normStr (k : String) (s : PyStr) : PyStr :=
  let v := pyStrip s
  if k = ariKey then
    let x := pyLower v
    if x = uStr ∨ x = yStr ∨ x = nStr then x else uStr
  else if k = "country_code" then pyUpper v
  else if k = "email" then pyLower v
  else pyUpper v

/-- The per-field transform of _normalize on any value: strings are rewritten,
every other value (null, int, nested dict) passes through unchanged. -/
def normV (k : String) : Val → Val
  | Val.vstr s => Val.vstr (normStr k s)
  | v => v

/-- The loop of _normalize over the dict entries. -/
def mapNorm (r : Record) : Record := r.map (fun p => (p.1, normV p.1 p.2))

/-- AddressValidationService._normalize: map the per-field transform over the
dict, then default address_residential_indicator to unknown only when the key
is absent. -/
def _normalize (r : Record) : Record :=
  if (getVal (mapNorm r) ariKey).isSome then mapNorm r
  else mapNorm r ++ [(ariKey, Val.vstr uStr)]

/-! ### AddressRecognitionService._recognize_one
(app/services/address_recognition.py lines 12-33) -/

/-- The per-field transform applied by _recognize_one to a string value.
Note the residential-indicator branch strips twice (vv.strip().lower() where
vv is already stripped), exactly as the source does. -/
def recStr (k : String) (s : PyStr) : PyStr :=
  let vv := pyStrip s
  if k = "country_code" then pyUpper vv
  else if k = "email" then pyLower vv
  else if k = ariKey then
    let x := pyLower (pyStrip vv)
    if x = uStr ∨ x = yStr ∨ x = nStr then x else uStr
  else pyUpper vv

/-- The per-field transform of _recognize_one on any value. -/
def recV (k : String) : Val → Val
  | Val.vstr s => Val.vstr (recStr k s)
  | v => v

/-- The final defaulting step of _recognize_one: if the key is absent the
unknown entry is appended, if it is present with value null it is overwritten
in place, otherwise the dict is unchanged. -/
def fixAri (b : Record) : Record :=
  match getVal b ariKey with
  | none => b ++ [(ariKey, Val.vstr uStr)]
  | some Val.vnone => setKey b ariKey (Val.vstr uStr)
  | some _ => b

/-- The loop of _recognize_one over the dict entries. -/
def mapRec (r : Record) : Record := r.map (fun p => (p.1, recV p.1 p.2))

/-- AddressRecognitionService._recognize_one. -/
def _recognize_one (r : Record) : Record := fixAri (mapRec r)

/-! ### Pydantic schemas (app/schemas/addresses.py) -/

/-- The closed ResidentialIndicator literal type. -/
inductive ARI where
  | unknown
  | yes
  | no
deriving DecidableEq, Repr

/-- The AddressIn pydantic model after validation.  The min_length
constraints are enforced by parseA below, not carried in the structure. -/
structure AddressIn where
  name : Option PyStr
  phone : Option PyStr
  email : Option PyStr
  company_name : Option PyStr
  address_line1 : PyStr
  address_line2 : Option PyStr
  address_line3 : Option PyStr
  city_locality : PyStr
  state_province : PyStr
  postal_code : Option (PyStr ⊕ Int)
  country_code : PyStr
  address_residential_indicator : ARI

/-- Serialize an optional string field. -/
def oVal : Option PyStr → Val
  | none => Val.vnone
  | some s => Val.vstr s

/-- Serialize the postal_code field (str, int or null). -/
def postVal : Option (PyStr ⊕ Int) → Val
  | none => Val.vnone
  | some (Sum.inl s) => Val.vstr s
  | some (Sum.inr n) => Val.vint n

/-- The string carried by a ResidentialIndicator value. -/
def ariStr : ARI → PyStr
  | ARI.unknown => uStr
  | ARI.yes => yStr
  | ARI.no => nStr

/-- AddressIn.model_dump: the fields in declaration order. -/
def dumpA (a : AddressIn) : Record :=
  [("name", oVal a.name), ("phone", oVal a.phone), ("email", oVal a.email),
   ("company_name", oVal a.company_name),
   ("address_line1", Val.vstr a.address_line1), ("address_line2", oVal a.address_line2),
   ("address_line3", oVal a.address_line3),
   ("city_locality", Val.vstr a.city_locality), ("state_province", Val.vstr a.state_province),
   ("postal_code", postVal a.postal_code), ("country_code", Val.vstr a.country_code),
   (ariKey, Val.vstr (ariStr a.address_residential_indicator))]

/-- Validate an optional str field (absent or null becomes None; an int or a
nested object is a type error). -/
def pOptStr : Option Val → Option (Option PyStr)
  | none => some none
  | some Val.vnone => some none
  | some (Val.vstr s) => some (some s)
  | some _ => none

/-- Validate a required str field with a min_length bound. -/
def pReqStr (minLen : Nat) : Option Val → Option PyStr
  | some (Val.vstr s) => if minLen ≤ s.length then some s else none
  | _ => none

/-- Validate country_code: a required str of exactly two characters. -/
def pCountry : Option Val → Option PyStr
  | some (Val.vstr s) => if s.length = 2 then some s else none
  | _ => none

/-- Validate postal_code (str, int or null, absent allowed). -/
def pPostal : Option Val → Option (Option (PyStr ⊕ Int))
  | none => some none
  | some Val.vnone => some none
  | some (Val.vstr s) => some (some (Sum.inl s))
  | some (Val.vint n) => some (some (Sum.inr n))
  | some _ => none

/-- The before-mode validator normalize_residential_indicator of AddressIn:
null and absent map to unknown, a string is stripped and lowercased and kept
when it is one of the three literals, and everything else maps to unknown.
It never fails. -/
def pAriIn (v : Option Val) : ARI :=
  match v with
  | some (Val.vstr s) =>
    let x := pyLower (pyStrip s)
    if x = yStr then ARI.yes else if x = nStr then ARI.no else ARI.unknown
  | _ => ARI.unknown

/-- AddressIn.model_validate on a dict (extra keys ignored); none models a
raised ValidationError.  Every field validates independently, so the record
parses exactly when every field does. -/
def parseA (r : Record) : Option AddressIn :=
  match pOptStr (getVal r "name"), pOptStr (getVal r "phone"), pOptStr (getVal r "email"),
        pOptStr (getVal r "company_name"), pReqStr 1 (getVal r "address_line1"),
        pOptStr (getVal r "address_line2"), pOptStr (getVal r "address_line3"),
        pReqStr 1 (getVal r "city_locality"), pReqStr 1 (getVal r "state_province"),
        pPostal (getVal r "postal_code"), pCountry (getVal r "country_code") with
  | some name, some phone, some email, some company, some l1, some l2, some l3,
    some city, some st, some postal, some cc =>
    some ⟨name, phone, email, company, l1, l2, l3, city, st, postal, cc,
          pAriIn (getVal r ariKey)⟩
  | _, _, _, _, _, _, _, _, _, _, _ => none

/-- Parse every stored payload record (the list comprehension over
AddressIn.model_validate): the whole payload parses or the first bad record
raises. -/
def parseAllA (pl : List Record) : Option (List AddressIn) := pl.mapM parseA

/-- A ValidationMessage record. -/
structure ValidationMessage where
  code : String
  message : String
  level : String
deriving DecidableEq, Repr

/-- The missing_postal_code warning emitted for US addresses without a
postal code. -/
def missingPostal : ValidationMessage :=
  ⟨"missing_postal_code", "postal_code is recommended for US", "warning"⟩

/-- Python truthiness of the postal_code attribute (None, empty string and the
int 0 are falsy). -/
def postalFalsy : Option (PyStr ⊕ Int) → Bool
  | none => true
  | some (Sum.inl s) => s.isEmpty
  | some (Sum.inr n) => n == 0

/-- AddressValidationService._status_and_messages (lines 49-61): always
verified; a warning when the uppercased country code is US and postal_code is
falsy. -/
def statusAndMessages (a : AddressIn) : String × List ValidationMessage :=
  if pyUpper a.country_code = pys "US" ∧ postalFalsy a.postal_code then
    ("verified", [missingPostal])
  else ("verified", [])

/-! ### Validation items, results, and the synchronous create
(app/services/address_validation.py lines 73-122) -/

/-- A persisted AddressValidationItem row (id / batch id / created_at
omitted; list position stands for created_at order). -/
structure AddressValidationItem where
  status : String
  original_address : Record
  matched_address : Record
  messages : List ValidationMessage

/-- A caller-facing AddressValidationResultOut record, with the two address
payloads kept as dicts. -/
structure AddressValidationResultOut where
  status : String
  original_address : Record
  matched_address : Record
  messages : List ValidationMessage

/-- The persisted item built for one input record by validate_and_store and
by process_existing_batch: original is the model dump, matched its
normalization. -/
def vItemOf (a : AddressIn) : AddressValidationItem :=
  ⟨(statusAndMessages a).1, dumpA a, _normalize (dumpA a), (statusAndMessages a).2⟩

/-- The echo canonicalization of validate_and_store lines 103-111: the dumped
record with its residential indicator re-canonicalized (a string is stripped,
lowercased and mapped into the closed set, null becomes unknown, an absent
key is added as unknown, any other value is left alone). -/
def canonOut (r : Record) : Record :=
  match getVal r ariKey with
  | some (Val.vstr s) =>
    let v := pyLower (pyStrip s)
    setKey r ariKey (Val.vstr (if v = uStr ∨ v = yStr ∨ v = nStr then v else uStr))
  | some Val.vnone => setKey r ariKey (Val.vstr uStr)
  | none => r ++ [(ariKey, Val.vstr uStr)]
  | some _ => r

/-- The response record built for one input record by validate_and_store;
none models the ValidationError raised by AddressOut.model_validate when the
echoed or the normalized dict no longer satisfies the address schema. -/
def vResultOf? (a : AddressIn) : Option AddressValidationResultOut :=
  match parseA (canonOut (dumpA a)), parseA (_normalize (dumpA a)) with
  | some _, some _ =>
    some ⟨(statusAndMessages a).1, canonOut (dumpA a), _normalize (dumpA a),
          (statusAndMessages a).2⟩
  | _, _ => none

/-- Batch status values. -/
inductive BStatus where
  | queued
  | processing
  | completed
  | failed
deriving DecidableEq, Repr

/-- A batch row: status plus the stored raw request payload (nullable). -/
structure Batch where
  status : BStatus
  payload : Option (List Record)

/-- The loop of validate_and_store over the input records, accumulating the
persisted items and the response records in input order; none models an
exception escaping the loop (rolling back the whole transaction). -/
def vLoop : List AddressIn → Option (List AddressValidationItem × List AddressValidationResultOut)
  | [] => some ([], [])
  | a :: rest =>
    match vResultOf? a with
    | none => none
    | some res =>
      match vLoop rest with
      | none => none
      | some (its, rs) => some (vItemOf a :: its, res :: rs)

/-- AddressValidationService.validate_and_store: one transaction persisting a
completed batch with the dumped payload and one item per record, returning the
ordered results; an error means the transaction rolled back and nothing was
persisted. -/
def validate_and_store (P : List AddressIn) :
    Except Unit (Batch × List AddressValidationItem × List AddressValidationResultOut) :=
  match vLoop P with
  | none => Except.error ()
  | some (its, rs) => Except.ok (⟨BStatus.completed, some (P.map dumpA)⟩, its, rs)

/-! ### The validation Process worker path
(app/services/address_validation.py lines 124-174, app/workers/jobs.py) -/

/-- The single-batch view of the validation store: the batch row (none when
the id is unknown) and this batch's items. -/
abbrev VDB := Option Batch × List AddressValidationItem

/-- AddressValidationService.process_existing_batch, as the list of committed
snapshots (one per executed commit) and a flag telling whether an exception
escaped.  The whole body runs in one transaction, so there is exactly one
commit on success and none when the payload fails to parse (the rollback also
undoes the status writes and the item delete). -/
def vProcessCommits : VDB → List VDB × Bool
  | (none, items) => ([(none, items)], false)
  | (some b, items) =>
    if b.status = BStatus.completed ∧ items.isEmpty = false then
      ([(some b, items)], false)
    else if (b.payload.getD []).isEmpty then
      ([(some { b with status := BStatus.failed }, items)], false)
    else
      match parseAllA (b.payload.getD []) with
      | none => ([], true)
      | some as => ([(some { b with status := BStatus.completed }, as.map vItemOf)], false)

/-- The worker job validate_addresses_batch (app/workers/jobs.py lines 8-13):
it calls process_existing_batch with no exception handling of its own. -/
def validate_addresses_batch (db : VDB) : List VDB × Bool := vProcessCommits db

/-- The committed state a reader sees after a call: the last committed
snapshot, or the unchanged input when nothing committed. -/
def finalVDB (db : VDB) (out : List VDB × Bool) : VDB := out.1.getLast?.getD db

/-! ### Requeue (app/services/address_validation.py lines 270-295 and the
endpoint app/api/v1/endpoints/addresses.py lines 149-163) -/

/-- The service-level outcome of requeue_batch: the RuntimeError raised while
the batch is processing, or the returned boolean. -/
inductive ReqRes where
  | raised
  | retFalse
  | retTrue
deriving DecidableEq, Repr

/-- AddressValidationService.requeue_batch: outcome plus committed state.
The RuntimeError path rolls back (nothing was written before the raise); the
empty-payload path commits the failed status and returns False; the success
path commits the queued status with the items cleared and returns True. -/
def requeue_batch : VDB → ReqRes × VDB
  | (none, items) => (ReqRes.retFalse, (none, items))
  | (some b, items) =>
    if b.status = BStatus.processing then (ReqRes.raised, (some b, items))
    else if (b.payload.getD []).isEmpty then
      (ReqRes.retFalse, (some { b with status := BStatus.failed }, items))
    else (ReqRes.retTrue, (some { b with status := BStatus.queued }, []))

/-- The HTTP outcome of the requeue endpoint. -/
inductive HttpOutcome where
  | conflict409
  | notFound404
  | accepted202
deriving DecidableEq, Repr

/-- AddressesAPI.requeue_validation_batch: RuntimeError becomes 409, a False
return becomes 404, and only a True return dispatches a new queue job (the
final Bool) and answers 202. -/
def requeue_endpoint (db : VDB) : HttpOutcome × VDB × Bool :=
  match requeue_batch db with
  | (ReqRes.raised, db') => (HttpOutcome.conflict409, db', false)
  | (ReqRes.retFalse, db') => (HttpOutcome.notFound404, db', false)
  | (ReqRes.retTrue, db') => (HttpOutcome.accepted202, db', true)

/-! ### Recognition pydantic models -/

/-- The AddressRecognizeKnownValues model: every field optional, and the
residential indicator a strict optional literal (no normalizing validator). -/
structure RecKnown where
  name : Option PyStr
  address_line1 : Option PyStr
  address_line2 : Option PyStr
  address_line3 : Option PyStr
  city_locality : Option PyStr
  state_province : Option PyStr
  postal_code : Option (PyStr ⊕ Int)
  country_code : Option PyStr
  address_residential_indicator : Option ARI

/-- AddressRecognizeKnownValues.model_dump in declaration order. -/
def dumpRK (k : RecKnown) : Record :=
  [("name", oVal k.name),
   ("address_line1", oVal k.address_line1), ("address_line2", oVal k.address_line2),
   ("address_line3", oVal k.address_line3),
   ("city_locality", oVal k.city_locality), ("state_province", oVal k.state_province),
   ("postal_code", postVal k.postal_code), ("country_code", oVal k.country_code),
   (ariKey, match k.address_residential_indicator with
            | none => Val.vnone
            | some x => Val.vstr (ariStr x))]

/-- The AddressRecognizeIn model: a required nonempty text plus an optional
known-values object. -/
structure AddressRecognizeIn where
  text : PyStr
  address : Option RecKnown

/-- AddressRecognizeIn.model_dump: the text and the nested dump (or null). -/
def dumpRI (a : AddressRecognizeIn) : Record :=
  [("text", Val.vstr a.text),
   ("address", match a.address with
               | none => Val.vnone
               | some k => Val.vdict (dumpRK k))]

/-- Validate the strict optional ResidentialIndicator literal: only the three
exact strings, null, or an absent key are accepted. -/
def pAriOpt : Option Val → Option (Option ARI)
  | none => some none
  | some Val.vnone => some none
  | some (Val.vstr s) =>
    if s = uStr then some (some ARI.unknown)
    else if s = yStr then some (some ARI.yes)
    else if s = nStr then some (some ARI.no)
    else none
  | some _ => none

/-- AddressRecognizeKnownValues.model_validate on a dict. -/
def parseRK (r : Record) : Option RecKnown :=
  match pOptStr (getVal r "name"), pOptStr (getVal r "address_line1"),
        pOptStr (getVal r "address_line2"), pOptStr (getVal r "address_line3"),
        pOptStr (getVal r "city_locality"), pOptStr (getVal r "state_province"),
        pPostal (getVal r "postal_code"), pOptStr (getVal r "country_code"),
        pAriOpt (getVal r ariKey) with
  | some name, some l1, some l2, some l3, some city, some st, some postal, some cc, some ari =>
    some ⟨name, l1, l2, l3, city, st, postal, cc, ari⟩
  | _, _, _, _, _, _, _, _, _ => none

/-- Validate the optional nested address object of AddressRecognizeIn. -/
def pAddrField : Option Val → Option (Option RecKnown)
  | none => some none
  | some Val.vnone => some none
  | some (Val.vdict d) => (parseRK d).map some
  | some _ => none

/-- AddressRecognizeIn.model_validate on a dict. -/
def parseRI (r : Record) : Option AddressRecognizeIn :=
  match pReqStr 1 (getVal r "text"), pAddrField (getVal r "address") with
  | some text, some addr => some ⟨text, addr⟩
  | _, _ => none

/-- Parse every stored recognition payload record. -/
def parseAllR (pl : List Record) : Option (List AddressRecognizeIn) := pl.mapM parseRI

/-! ### Recognition items, sync create, and the Process worker path
(app/services/address_recognition.py) -/

/-- A persisted AddressRecognitionItem row; the recognized JSONB blob is kept
as its two sub-records. -/
structure AddressRecognitionItem where
  status : String
  original_address : Record
  recognized_address : Record

/-- An AddressRecognizeResultOut record (the two address payloads as dicts). -/
structure AddressRecognizeResultOut where
  original_address : Record
  recognized_address : Record

/-- The item built by the worker path process_existing_batch (lines 98-110):
original is the dump of the nested address model, or the empty dict. -/
def rItemOf (a : AddressRecognizeIn) : AddressRecognitionItem :=
  let orig := match a.address with
              | some k => dumpRK k
              | none => []
  ⟨"completed", orig, _recognize_one orig⟩

/-- The item built by the synchronous recognize_and_store (lines 53-66):
original is the dump of the whole AddressRecognizeIn record. -/
def rItemOfSync (a : AddressRecognizeIn) : AddressRecognitionItem :=
  ⟨"completed", dumpRI a, _recognize_one (dumpRI a)⟩

/-- The response record of recognize_and_store.  The source rebuilds both
payloads through AddressOut.model_validate, which is the full address schema;
none models the ValidationError that raises out of the loop. -/
def rResultOf? (a : AddressRecognizeIn) : Option AddressRecognizeResultOut :=
  match parseA (dumpRI a), parseA (_recognize_one (dumpRI a)) with
  | some o, some m => some ⟨dumpA o, dumpA m⟩
  | _, _ => none

/-- The loop of recognize_and_store over the input records. -/
def rLoop : List AddressRecognizeIn →
    Option (List AddressRecognitionItem × List AddressRecognizeResultOut)
  | [] => some ([], [])
  | a :: rest =>
    match rResultOf? a with
    | none => none
    | some res =>
      match rLoop rest with
      | none => none
      | some (its, rs) => some (rItemOfSync a :: its, res :: rs)

/-- AddressRecognitionService.recognize_and_store: the single commit happens
after the loop, so an error in the loop persists nothing. -/
def recognize_and_store (P : List AddressRecognizeIn) :
    Except Unit (Batch × List AddressRecognitionItem × List AddressRecognizeResultOut) :=
  match rLoop P with
  | none => Except.error ()
  | some (its, rs) => Except.ok (⟨BStatus.completed, some (P.map dumpRI)⟩, its, rs)

/-- The single-batch view of the recognition store. -/
abbrev RDB := Option Batch × List AddressRecognitionItem

/-- AddressRecognitionService.process_existing_batch (lines 78-116), as its
list of committed snapshots.  Unlike the validation pipeline it takes no row
lock, it also skips completed batches with no items, and it commits the
processing status in its own transaction before the delete / insert /
completed transaction; a payload that fails to parse leaves that first commit
in place and raises. -/
def rProcessCommits : RDB → List RDB × Bool
  | (none, _items) => ([], false)
  | (some b, items) =>
    if b.status = BStatus.processing ∨ b.status = BStatus.completed then ([], false)
    else if (b.payload.getD []).isEmpty then
      ([(some { b with status := BStatus.failed }, items)], false)
    else
      match parseAllR (b.payload.getD []) with
      | none => ([(some { b with status := BStatus.processing }, items)], true)
      | some as =>
        ([(some { b with status := BStatus.processing }, items),
          (some { b with status := BStatus.completed }, as.map rItemOf)], false)

/-- The worker job recognize_addresses_batch (app/workers/jobs.py lines
15-20): it calls process_existing_batch with no exception handling. -/
def recognize_addresses_batch (db : RDB) : List RDB × Bool := rProcessCommits db

/-- The committed state a reader sees after a recognition Process call. -/
def finalRDB (db : RDB) (out : List RDB × Bool) : RDB := out.1.getLast?.getD db

/-! ### Observable-state invariant (claim C2) -/

/-- The item set of a validation batch exactly matches its current payload
under the pipeline's parse and normalization. -/
def vMatches (b : Batch) (items : List AddressValidationItem) : Prop :=
  ∃ as, parseAllA (b.payload.getD []) = some as ∧ items = as.map vItemOf

/-- The reader-observable invariant for a validation batch: the item set is
empty or exactly matches the payload. -/
def vInv : VDB → Prop
  | (none, items) => items = []
  | (some b, items) => items = [] ∨ vMatches b items

/-- The item set of a recognition batch exactly matches its current payload. -/
def rMatches (b : Batch) (items : List AddressRecognitionItem) : Prop :=
  ∃ as, parseAllR (b.payload.getD []) = some as ∧ items = as.map rItemOf

/-- The reader-observable invariant for a recognition batch. -/
def rInv : RDB → Prop
  | (none, items) => items = []
  | (some b, items) => items = [] ∨ rMatches b items

/-! ### Well-formedness needed by the synchronous validation response -/

/-- The records for which the validate_and_store response construction cannot
raise: the required fields are nonempty and two characters survive in the
country code even after trimming (AddressOut.model_validate re-checks the
field constraints on the echoed and on the normalized dict). -/
def GoodA (a : AddressIn) : Prop :=
  1 ≤ a.address_line1.length ∧ 1 ≤ a.city_locality.length ∧ 1 ≤ a.state_province.length ∧
  a.country_code.length = 2 ∧
  1 ≤ (pyStrip a.address_line1).length ∧ 1 ≤ (pyStrip a.city_locality).length ∧
  1 ≤ (pyStrip a.state_province).length ∧ (pyStrip a.country_code).length = 2

/-! ### Two concurrent recognition workers (claim C5)

The recognition Process reads its batch with session.get, which takes no row
lock, and commits the processing status before the item-generation
transaction.  Under the store's committed-read semantics two workers can
interleave at these commit points.  Each worker is a small state machine over
the shared committed state; one step is one atomic unit (a read, or a commit).
Items carry a fresh id so that the delete inside the second transaction can be
applied to exactly the rows the worker saw when its delete statement ran. -/

/-- The shared committed state for the two-worker run: the batch row fields
and the identified item rows. -/
structure RShared where
  status : BStatus
  payload : List Record
  items : List (Nat × AddressRecognitionItem)
  nextId : Nat

/-- A recognition worker's control point: about to read the batch, about to
commit the processing status, about to run its delete statement, about to
commit the delete plus inserts plus completed status (remembering which rows
its delete saw), or finished. -/
inductive WPhase where
  | w0
  | w1
  | w2
  | w3 : List Nat → WPhase
  | wdone

/-- Assign fresh ids to freshly inserted items. -/
def withIds : Nat → List AddressRecognitionItem → List (Nat × AddressRecognitionItem)
  | _, [] => []
  | n, it :: rest => (n, it) :: withIds (n + 1) rest

/-- One atomic step of one recognition worker against the shared state. -/
def wStep (s : RShared) : WPhase → RShared × WPhase
  | WPhase.w0 =>
    if s.status = BStatus.processing ∨ s.status = BStatus.completed then (s, WPhase.wdone)
    else if s.payload.isEmpty then ({ s with status := BStatus.failed }, WPhase.wdone)
    else (s, WPhase.w1)
  | WPhase.w1 => ({ s with status := BStatus.processing }, WPhase.w2)
  | WPhase.w2 => (s, WPhase.w3 (s.items.map Prod.fst))
  | WPhase.w3 del =>
    match parseAllR s.payload with
    | none => (s, WPhase.wdone)
    | some as =>
      ({ s with status := BStatus.completed,
                items := s.items.filter (fun p => (del.contains p.1) = false)
                         ++ withIds s.nextId (as.map rItemOf),
                nextId := s.nextId + as.length }, WPhase.wdone)
  | WPhase.wdone => (s, WPhase.wdone)

/-- The two-worker system state. -/
structure Sys where
  shared : RShared
  wa : WPhase
  wb : WPhase

/-- One scheduler step: true steps worker A, false steps worker B. -/
def sysStep (t : Bool) (s : Sys) : Sys :=
  if t then
    let (sh, w) := wStep s.shared s.wa
    ⟨sh, w, s.wb⟩
  else
    let (sh, w) := wStep s.shared s.wb
    ⟨sh, s.wa, w⟩

/-- Run a schedule (a list of scheduler choices). -/
def runSched : List Bool → Sys → Sys
  | [], s => s
  | t :: rest, s => runSched rest (sysStep t s)

/-- A concrete one-record recognition payload entry: text x, no known
values. -/
def xEntry : Record := [("text", Val.vstr (pys "x")), ("address", Val.vnone)]

/-- The initial two-worker state: a queued batch with the one-record payload
and no items. -/
def sys0 : Sys := ⟨⟨BStatus.queued, [xEntry], [], 0⟩, WPhase.w0, WPhase.w0⟩

/-- The interleaving in which both workers read the queued status before
either commits: A and B alternate through their four steps. -/
def raceSched : List Bool := [true, false, true, false, true, false, true, false]

/-- A concrete well-formed address used in witnesses: 1 MAIN ST, TOWN, CA,
country GB, no postal code. -/
def gAddr : AddressIn :=
  ⟨none, none, none, none, pys "1 MAIN ST", none, none, pys "TOWN", pys "CA",
   none, pys "GB", ARI.unknown⟩

/-- A raw submitted record whose residential indicator needs canonicalizing
(spaces and capitals around yes). -/
def rawYes : Record :=
  [("address_line1", Val.vstr (pys "1 Main St")),
   ("city_locality", Val.vstr (pys "anytown")),
   ("state_province", Val.vstr (pys "ca")),
   ("country_code", Val.vstr (pys "us")),
   (ariKey, Val.vstr (pys " YES "))]

/-- The AddressIn that rawYes parses to: the indicator is already canonical
(yes) when the service code runs. -/
def yAddr : AddressIn :=
  ⟨none, none, none, none, pys "1 Main St", none, none, pys "anytown", pys "ca",
   none, pys "us", ARI.yes⟩

/-! ## Theorems

### Code-point and string lemmas -/

theorem upChar_upChar (c : Nat) : upChar (upChar c) = upChar c := by
  simp only [upChar]
  split_ifs <;> omega

theorem lowChar_lowChar (c : Nat) : lowChar (lowChar c) = lowChar c := by
  simp only [lowChar]
  split_ifs <;> omega

theorem isSp_upChar (c : Nat) : isSp (upChar c) = isSp c := by
  simp only [isSp, upChar]
  split_ifs with h
  · simp only [decide_eq_decide]
    omega
  · rfl

theorem isSp_lowChar (c : Nat) : isSp (lowChar c) = isSp c := by
  simp only [isSp, lowChar]
  split_ifs with h
  · simp only [decide_eq_decide]
    omega
  · rfl

theorem pyUpper_length (s : PyStr) : (pyUpper s).length = s.length := by
  simp [pyUpper]

theorem pyLower_length (s : PyStr) : (pyLower s).length = s.length := by
  simp [pyLower]

theorem pyUpper_pyUpper (s : PyStr) : pyUpper (pyUpper s) = pyUpper s := by
  simp only [pyUpper, List.map_map]
  exact List.map_congr_left (fun a _ => by simp [Function.comp, upChar_upChar])

theorem pyLower_pyLower (s : PyStr) : pyLower (pyLower s) = pyLower s := by
  simp only [pyLower, List.map_map]
  exact List.map_congr_left (fun a _ => by simp [Function.comp, lowChar_lowChar])

theorem length_dropWhile_le' (p : α → Bool) (l : List α) :
    (l.dropWhile p).length ≤ l.length := by
  induction l with
  | nil => simp
  | cons a t ih =>
    by_cases h : p a
    · simp only [List.dropWhile_cons, h, if_true, List.length_cons]
      omega
    · simp [List.dropWhile_cons, h]

theorem dropWhile_dropWhile (p : α → Bool) (l : List α) :
    (l.dropWhile p).dropWhile p = l.dropWhile p := by
  induction l with
  | nil => rfl
  | cons a t ih =>
    by_cases h : p a <;> simp [List.dropWhile_cons, h, ih]

theorem exists_append_dropWhile (p : α → Bool) (l : List α) :
    ∃ u, l = u ++ l.dropWhile p := by
  induction l with
  | nil => exact ⟨[], rfl⟩
  | cons a t ih =>
    by_cases h : p a
    · obtain ⟨u, hu⟩ := ih
      refine ⟨a :: u, ?_⟩
      simp only [List.dropWhile_cons, h, if_true, List.cons_append]
      exact congrArg (a :: ·) hu
    · exact ⟨[], by simp [List.dropWhile_cons, h]⟩

theorem dropWhile_eq_self_left (p : α → Bool) (a b : List α)
    (h : (a ++ b).dropWhile p = a ++ b) : a.dropWhile p = a := by
  cases a with
  | nil => rfl
  | cons x t =>
    by_cases hx : p x
    · exfalso
      have hlen := congrArg List.length h
      rw [List.cons_append, List.dropWhile_cons] at hlen
      simp only [hx, if_true, List.length_cons, List.length_append] at hlen
      have hle := length_dropWhile_le' p (t ++ b)
      simp only [List.length_append] at hle
      omega
    · simp [List.dropWhile_cons, hx]

theorem dropEnd_dropEnd (s : PyStr) : dropEnd (dropEnd s) = dropEnd s := by
  simp [dropEnd, List.reverse_reverse, dropWhile_dropWhile]

theorem dropWhile_dropEnd (s : PyStr) (h : s.dropWhile isSp = s) :
    (dropEnd s).dropWhile isSp = dropEnd s := by
  obtain ⟨u, hu⟩ := exists_append_dropWhile isSp s.reverse
  have hs : s = dropEnd s ++ u.reverse := by
    have h2 := congrArg List.reverse hu
    simpa [dropEnd, List.reverse_append] using h2
  exact dropWhile_eq_self_left isSp _ _ (by rw [← hs]; exact h)

theorem pyStrip_pyStrip (s : PyStr) : pyStrip (pyStrip s) = pyStrip s := by
  show dropEnd ((dropEnd (s.dropWhile isSp)).dropWhile isSp) = _
  rw [dropWhile_dropEnd _ (dropWhile_dropWhile isSp s), dropEnd_dropEnd]
  rfl

theorem dropWhile_map_sp (f : Nat → Nat) (hf : ∀ c, isSp (f c) = isSp c) (l : PyStr) :
    (l.map f).dropWhile isSp = (l.dropWhile isSp).map f := by
  induction l with
  | nil => rfl
  | cons a t ih =>
    by_cases h : isSp a
    · simp [List.dropWhile_cons, hf, h, ih]
    · simp [List.dropWhile_cons, hf, h]

theorem dropEnd_map_sp (f : Nat → Nat) (hf : ∀ c, isSp (f c) = isSp c) (l : PyStr) :
    dropEnd (l.map f) = (dropEnd l).map f := by
  simp [dropEnd, ← List.map_reverse, dropWhile_map_sp f hf]

theorem pyStrip_map_sp (f : Nat → Nat) (hf : ∀ c, isSp (f c) = isSp c) (l : PyStr) :
    pyStrip (l.map f) = (pyStrip l).map f := by
  simp [pyStrip, dropWhile_map_sp f hf, dropEnd_map_sp f hf]

theorem pyStrip_pyUpper (s : PyStr) : pyStrip (pyUpper s) = pyUpper (pyStrip s) :=
  pyStrip_map_sp upChar isSp_upChar s

theorem pyStrip_pyLower (s : PyStr) : pyStrip (pyLower s) = pyLower (pyStrip s) :=
  pyStrip_map_sp lowChar isSp_lowChar s

theorem upper_strip_idem (s : PyStr) :
    pyUpper (pyStrip (pyUpper (pyStrip s))) = pyUpper (pyStrip s) := by
  rw [pyStrip_pyUpper, pyStrip_pyStrip, pyUpper_pyUpper]

theorem lower_strip_idem (s : PyStr) :
    pyLower (pyStrip (pyLower (pyStrip s))) = pyLower (pyStrip s) := by
  rw [pyStrip_pyLower, pyStrip_pyStrip, pyLower_pyLower]

/-! ### Idempotence of the per-field transforms -/

theorem normStr_ariKey (s : PyStr) :
    normStr ariKey s
      = (if pyLower (pyStrip s) = uStr ∨ pyLower (pyStrip s) = yStr ∨ pyLower (pyStrip s) = nStr
         then pyLower (pyStrip s) else uStr) := by
  simp [normStr]

theorem normStr_ariKey_mem (s : PyStr) :
    normStr ariKey s = uStr ∨ normStr ariKey s = yStr ∨ normStr ariKey s = nStr := by
  rw [normStr_ariKey]
  split_ifs with h
  · exact h
  · exact Or.inl rfl

theorem normStr_ariKey_fix (t : PyStr) (h : t = uStr ∨ t = yStr ∨ t = nStr) :
    normStr ariKey t = t := by
  rcases h with rfl | rfl | rfl <;> decide

theorem normStr_normStr (k : String) (s : PyStr) : normStr k (normStr k s) = normStr k s := by
  have d1 : ¬ ("country_code" = ariKey) := by decide
  have d2 : ¬ ("email" = ariKey) := by decide
  have d3 : ¬ ("email" = "country_code") := by decide
  by_cases hk : k = ariKey
  · subst hk
    exact normStr_ariKey_fix _ (normStr_ariKey_mem s)
  · by_cases hc : k = "country_code"
    · subst hc
      simp [normStr, d1, upper_strip_idem]
    · by_cases he : k = "email"
      · subst he
        simp [normStr, d2, d3, lower_strip_idem]
      · simp [normStr, hk, hc, he, upper_strip_idem]

theorem recStr_ariKey (s : PyStr) :
    recStr ariKey s
      = (if pyLower (pyStrip s) = uStr ∨ pyLower (pyStrip s) = yStr ∨ pyLower (pyStrip s) = nStr
         then pyLower (pyStrip s) else uStr) := by
  have d1 : ¬ (ariKey = "country_code") := by decide
  have d2 : ¬ (ariKey = "email") := by decide
  simp [recStr, d1, d2, pyStrip_pyStrip]

theorem recStr_ariKey_mem (s : PyStr) :
    recStr ariKey s = uStr ∨ recStr ariKey s = yStr ∨ recStr ariKey s = nStr := by
  rw [recStr_ariKey]
  split_ifs with h
  · exact h
  · exact Or.inl rfl

theorem recStr_ariKey_fix (t : PyStr) (h : t = uStr ∨ t = yStr ∨ t = nStr) :
    recStr ariKey t = t := by
  rcases h with rfl | rfl | rfl <;> decide

theorem recStr_recStr (k : String) (s : PyStr) : recStr k (recStr k s) = recStr k s := by
  have d3 : ¬ ("email" = "country_code") := by decide
  by_cases hc : k = "country_code"
  · subst hc
    simp [recStr, upper_strip_idem]
  · by_cases he : k = "email"
    · subst he
      simp [recStr, d3, lower_strip_idem]
    · by_cases hk : k = ariKey
      · subst hk
        exact recStr_ariKey_fix _ (recStr_ariKey_mem s)
      · simp [recStr, hk, hc, he, upper_strip_idem]

theorem normV_normV (k : String) (v : Val) : normV k (normV k v) = normV k v := by
  cases v <;> simp [normV, normStr_normStr]

theorem recV_recV (k : String) (v : Val) : recV k (recV k v) = recV k v := by
  cases v <;> simp [recV, recStr_recStr]

/-! ### Dict lookup lemmas -/

theorem mapNorm_cons (p : String × Val) (t : Record) :
    mapNorm (p :: t) = (p.1, normV p.1 p.2) :: mapNorm t := rfl

theorem mapRec_cons (p : String × Val) (t : Record) :
    mapRec (p :: t) = (p.1, recV p.1 p.2) :: mapRec t := rfl

theorem setKey_cons (p : String × Val) (t : Record) (k : String) (v : Val) :
    setKey (p :: t) k v = (if p.1 = k then (k, v) else p) :: setKey t k v := rfl

theorem getVal_mapNorm (r : Record) (k : String) :
    getVal (mapNorm r) k = (getVal r k).map (normV k) := by
  induction r with
  | nil => rfl
  | cons p t ih =>
    by_cases h : p.1 = k
    · simp [mapNorm_cons, getVal, h]
    · simp only [mapNorm_cons, getVal, h, if_false]
      exact ih

theorem getVal_mapRec (r : Record) (k : String) :
    getVal (mapRec r) k = (getVal r k).map (recV k) := by
  induction r with
  | nil => rfl
  | cons p t ih =>
    by_cases h : p.1 = k
    · simp [mapRec_cons, getVal, h]
    · simp only [mapRec_cons, getVal, h, if_false]
      exact ih

theorem getVal_append (r₁ r₂ : Record) (k : String) :
    getVal (r₁ ++ r₂) k = (getVal r₁ k).or (getVal r₂ k) := by
  induction r₁ with
  | nil => simp [getVal]
  | cons p t ih =>
    by_cases h : p.1 = k
    · simp [getVal, h]
    · simp [getVal, h, ih]

theorem getVal_setKey (r : Record) (k : String) (v : Val) :
    getVal (setKey r k v) k = (getVal r k).map (fun _ => v) := by
  induction r with
  | nil => rfl
  | cons p t ih =>
    by_cases h : p.1 = k
    · simp [setKey_cons, getVal, h]
    · simp only [setKey_cons, getVal, h, if_false]
      exact ih

theorem mapNorm_mapNorm (r : Record) : mapNorm (mapNorm r) = mapNorm r := by
  simp only [mapNorm, List.map_map]
  exact List.map_congr_left (fun p _ => by simp [Function.comp, normV_normV])

theorem mapRec_mapRec (r : Record) : mapRec (mapRec r) = mapRec r := by
  simp only [mapRec, List.map_map]
  exact List.map_congr_left (fun p _ => by simp [Function.comp, recV_recV])

theorem mapNorm_append (a b : Record) : mapNorm (a ++ b) = mapNorm a ++ mapNorm b := by
  simp [mapNorm]

theorem mapRec_append (a b : Record) : mapRec (a ++ b) = mapRec a ++ mapRec b := by
  simp [mapRec]

theorem mapRec_setKey (r : Record) (k : String) (v : Val) :
    mapRec (setKey r k v) = setKey (mapRec r) k (recV k v) := by
  simp only [mapRec, setKey, List.map_map]
  refine List.map_congr_left (fun p _ => ?_)
  by_cases h : p.1 = k <;> simp [Function.comp, h]

/-! ### Idempotence of the two normalizers -/

theorem normalizeIdem (r : Record) : _normalize (_normalize r) = _normalize r := by
  by_cases h : (getVal (mapNorm r) ariKey).isSome
  · simp [_normalize, mapNorm_mapNorm, h]
  · have hn : getVal (mapNorm r) ariKey = none := Option.not_isSome_iff_eq_none.mp h
    have h1 : _normalize r = mapNorm r ++ [(ariKey, Val.vstr uStr)] := by
      simp [_normalize, h]
    have hu : normStr ariKey uStr = uStr := by decide
    have h2 : mapNorm (mapNorm r ++ [(ariKey, Val.vstr uStr)])
        = mapNorm r ++ [(ariKey, Val.vstr uStr)] := by
      rw [mapNorm_append, mapNorm_mapNorm]
      simp [mapNorm, normV, hu]
    have h3 : getVal (mapNorm r ++ [(ariKey, Val.vstr uStr)]) ariKey
        = some (Val.vstr uStr) := by
      rw [getVal_append, hn]
      rfl
    rw [h1]
    simp [_normalize, h2, h3]

theorem recognizeIdem (r : Record) :
    _recognize_one (_recognize_one r) = _recognize_one r := by
  unfold _recognize_one
  cases hv : getVal (mapRec r) ariKey with
  | none =>
    have h1 : fixAri (mapRec r) = mapRec r ++ [(ariKey, Val.vstr uStr)] := by
      simp [fixAri, hv]
    have hu : recStr ariKey uStr = uStr := by decide
    have h2 : mapRec (mapRec r ++ [(ariKey, Val.vstr uStr)])
        = mapRec r ++ [(ariKey, Val.vstr uStr)] := by
      rw [mapRec_append, mapRec_mapRec]
      simp [mapRec, recV, hu]
    have h3 : getVal (mapRec r ++ [(ariKey, Val.vstr uStr)]) ariKey
        = some (Val.vstr uStr) := by
      rw [getVal_append, hv]
      rfl
    rw [h1, h2]
    simp [fixAri, h3]
  | some v =>
    cases v with
    | vstr s =>
      have h1 : fixAri (mapRec r) = mapRec r := by simp [fixAri, hv]
      rw [h1, mapRec_mapRec]
      simp [fixAri, hv]
    | vint n =>
      have h1 : fixAri (mapRec r) = mapRec r := by simp [fixAri, hv]
      rw [h1, mapRec_mapRec]
      simp [fixAri, hv]
    | vdict d =>
      have h1 : fixAri (mapRec r) = mapRec r := by simp [fixAri, hv]
      rw [h1, mapRec_mapRec]
      simp [fixAri, hv]
    | vnone =>
      have h1 : fixAri (mapRec r) = setKey (mapRec r) ariKey (Val.vstr uStr) := by
        simp [fixAri, hv]
      have hrv : recV ariKey (Val.vstr uStr) = Val.vstr uStr := by
        have hu : recStr ariKey uStr = uStr := by decide
        simp [recV, hu]
      have h3 : getVal (setKey (mapRec r) ariKey (Val.vstr uStr)) ariKey
          = some (Val.vstr uStr) := by
        rw [getVal_setKey, hv]
        rfl
      rw [h1, mapRec_setKey, hrv, mapRec_mapRec]
      simp [fixAri, h3]

/-- C8: normalization is idempotent for both pipelines: applying the
validation normalizer or the recognition normalizer twice to any address
record gives the same dict as applying it once. -/
theorem C8_normalization_idempotent (r : Record) :
    _normalize (_normalize r) = _normalize r
    ∧ _recognize_one (_recognize_one r) = _recognize_one r :=
  ⟨normalizeIdem r, recognizeIdem r⟩

/-! ### Behaviour of the normalizers on the residential-indicator field -/

theorem normalize_absent (r : Record) (h : getVal r ariKey = none) :
    getVal (_normalize r) ariKey = some (Val.vstr uStr) := by
  have hm : getVal (mapNorm r) ariKey = none := by
    rw [getVal_mapNorm, h]
    rfl
  have h2 : _normalize r = mapNorm r ++ [(ariKey, Val.vstr uStr)] := by
    simp [_normalize, hm]
  rw [h2, getVal_append, hm]
  rfl

theorem normalize_str (r : Record) (s : PyStr) (h : getVal r ariKey = some (Val.vstr s)) :
    getVal (_normalize r) ariKey = some (Val.vstr (normStr ariKey s)) := by
  have hm : getVal (mapNorm r) ariKey = some (Val.vstr (normStr ariKey s)) := by
    rw [getVal_mapNorm, h]
    rfl
  have h2 : _normalize r = mapNorm r := by simp [_normalize, hm]
  rw [h2, hm]

theorem recognize_absent (r : Record) (h : getVal r ariKey = none) :
    getVal (_recognize_one r) ariKey = some (Val.vstr uStr) := by
  have hm : getVal (mapRec r) ariKey = none := by
    rw [getVal_mapRec, h]
    rfl
  have h2 : _recognize_one r = mapRec r ++ [(ariKey, Val.vstr uStr)] := by
    unfold _recognize_one
    simp [fixAri, hm]
  rw [h2, getVal_append, hm]
  rfl

theorem recognize_null (r : Record) (h : getVal r ariKey = some Val.vnone) :
    getVal (_recognize_one r) ariKey = some (Val.vstr uStr) := by
  have hm : getVal (mapRec r) ariKey = some Val.vnone := by
    rw [getVal_mapRec, h]
    rfl
  have h2 : _recognize_one r = setKey (mapRec r) ariKey (Val.vstr uStr) := by
    unfold _recognize_one
    simp [fixAri, hm]
  rw [h2, getVal_setKey, hm]
  rfl

theorem recognize_str (r : Record) (s : PyStr) (h : getVal r ariKey = some (Val.vstr s)) :
    getVal (_recognize_one r) ariKey = some (Val.vstr (recStr ariKey s)) := by
  have hm : getVal (mapRec r) ariKey = some (Val.vstr (recStr ariKey s)) := by
    rw [getVal_mapRec, h]
    rfl
  have h2 : _recognize_one r = mapRec r := by
    unfold _recognize_one
    simp [fixAri, hm]
  rw [h2, hm]

/-- C3 (amended): the residential indicator is canonicalized into the closed
set only on the paths the code implements.  In the validation normalizer an
absent field defaults to unknown and a string value is mapped (via normStr
with the residential-indicator key: strip, lowercase, then the closed-set
check) into one of unknown / yes / no; in the recognition normalizer the same
holds and additionally a null value maps to unknown.  (A null value in the
validation normalizer, and any other non-string value in either, passes
through unchanged: see the counterexample.) -/
theorem C3_amended_residential_indicator :
    (∀ r : Record, getVal r ariKey = none →
        getVal (_normalize r) ariKey = some (Val.vstr uStr))
    ∧ (∀ (r : Record) (s : PyStr), getVal r ariKey = some (Val.vstr s) →
        getVal (_normalize r) ariKey = some (Val.vstr (normStr ariKey s))
        ∧ (normStr ariKey s = uStr ∨ normStr ariKey s = yStr ∨ normStr ariKey s = nStr))
    ∧ (∀ r : Record, getVal r ariKey = none →
        getVal (_recognize_one r) ariKey = some (Val.vstr uStr))
    ∧ (∀ r : Record, getVal r ariKey = some Val.vnone →
        getVal (_recognize_one r) ariKey = some (Val.vstr uStr))
    ∧ (∀ (r : Record) (s : PyStr), getVal r ariKey = some (Val.vstr s) →
        getVal (_recognize_one r) ariKey = some (Val.vstr (recStr ariKey s))
        ∧ (recStr ariKey s = uStr ∨ recStr ariKey s = yStr ∨ recStr ariKey s = nStr)) :=
  ⟨normalize_absent,
   fun r s h => ⟨normalize_str r s h, normStr_ariKey_mem s⟩,
   recognize_absent,
   recognize_null,
   fun r s h => ⟨recognize_str r s h, recStr_ariKey_mem s⟩⟩

/-- C3 witness: the amended theorem evaluated at concrete inputs: an empty
dict, a dict with a null indicator (recognition), and a dict carrying the
string with spaces and capitals around yes. -/
theorem C3_amended_residential_indicator_witness :
    getVal (_normalize ([] : Record)) ariKey = some (Val.vstr uStr)
    ∧ getVal (_recognize_one [(ariKey, Val.vnone)]) ariKey = some (Val.vstr uStr)
    ∧ getVal (_normalize [(ariKey, Val.vstr (pys " YES "))]) ariKey
        = some (Val.vstr (normStr ariKey (pys " YES "))) :=
  ⟨C3_amended_residential_indicator.1 [] rfl,
   C3_amended_residential_indicator.2.2.2.1 [(ariKey, Val.vnone)] rfl,
   (C3_amended_residential_indicator.2.1 [(ariKey, Val.vstr (pys " YES "))] (pys " YES ") rfl).1⟩

/-- C3 counterexample: the validation normalizer maps a null residential
indicator to null, not to the string unknown — the claim's assertion that a
null value maps into the closed string set fails on the validation
pipeline. -/
theorem C3_counterexample_null_passthrough :
    getVal (_normalize [(ariKey, Val.vnone)]) ariKey = some Val.vnone
    ∧ some Val.vnone ≠ some (Val.vstr uStr)
    ∧ some Val.vnone ≠ some (Val.vstr yStr)
    ∧ some Val.vnone ≠ some (Val.vstr nStr) := by
  refine ⟨rfl, ?_, ?_, ?_⟩ <;> simp

/-! ### Parsing a model dump back through the address schema -/

theorem pOptStr_oVal (o : Option PyStr) : pOptStr (some (oVal o)) = some o := by
  cases o <;> rfl

theorem pPostal_postVal (o : Option (PyStr ⊕ Int)) :
    pPostal (some (postVal o)) = some o := by
  rcases o with _ | s | n <;> rfl

theorem pAriIn_ariStr (x : ARI) : pAriIn (some (Val.vstr (ariStr x))) = x := by
  cases x <;> rfl

theorem pOptStr_normV_oVal (k : String) (o : Option PyStr) :
    pOptStr (some (normV k (oVal o))) = some (o.map (normStr k)) := by
  cases o <;> rfl

theorem pPostal_normV_postVal (k : String) (o : Option (PyStr ⊕ Int)) :
    pPostal (some (normV k (postVal o)))
      = some (o.map (Sum.map (normStr k) id)) := by
  rcases o with _ | s | n <;> rfl

theorem parseA_dumpA (a : AddressIn) (h1 : 1 ≤ a.address_line1.length)
    (h2 : 1 ≤ a.city_locality.length) (h3 : 1 ≤ a.state_province.length)
    (h4 : a.country_code.length = 2) :
    parseA (dumpA a) = some a := by
  unfold parseA
  rw [show getVal (dumpA a) "name" = some (oVal a.name) from rfl,
      show getVal (dumpA a) "phone" = some (oVal a.phone) from rfl,
      show getVal (dumpA a) "email" = some (oVal a.email) from rfl,
      show getVal (dumpA a) "company_name" = some (oVal a.company_name) from rfl,
      show getVal (dumpA a) "address_line1" = some (Val.vstr a.address_line1) from rfl,
      show getVal (dumpA a) "address_line2" = some (oVal a.address_line2) from rfl,
      show getVal (dumpA a) "address_line3" = some (oVal a.address_line3) from rfl,
      show getVal (dumpA a) "city_locality" = some (Val.vstr a.city_locality) from rfl,
      show getVal (dumpA a) "state_province" = some (Val.vstr a.state_province) from rfl,
      show getVal (dumpA a) "postal_code" = some (postVal a.postal_code) from rfl,
      show getVal (dumpA a) "country_code" = some (Val.vstr a.country_code) from rfl,
      show getVal (dumpA a) ariKey
        = some (Val.vstr (ariStr a.address_residential_indicator)) from rfl]
  simp only [pOptStr_oVal, pPostal_postVal, pAriIn_ariStr, pReqStr, pCountry,
             h1, h2, h3, h4, if_true]

theorem parseA_normalize_isSome (a : AddressIn)
    (h5 : 1 ≤ (pyStrip a.address_line1).length) (h6 : 1 ≤ (pyStrip a.city_locality).length)
    (h7 : 1 ≤ (pyStrip a.state_province).length)
    (h8 : (pyStrip a.country_code).length = 2) :
    (parseA (_normalize (dumpA a))).isSome = true := by
  have hn : _normalize (dumpA a) = mapNorm (dumpA a) := by
    simp [_normalize,
          show getVal (mapNorm (dumpA a)) ariKey
            = some (Val.vstr (normStr ariKey (ariStr a.address_residential_indicator)))
            from rfl]
  rw [hn]
  unfold parseA
  rw [show getVal (mapNorm (dumpA a)) "name" = some (normV "name" (oVal a.name)) from rfl,
      show getVal (mapNorm (dumpA a)) "phone" = some (normV "phone" (oVal a.phone)) from rfl,
      show getVal (mapNorm (dumpA a)) "email" = some (normV "email" (oVal a.email)) from rfl,
      show getVal (mapNorm (dumpA a)) "company_name"
        = some (normV "company_name" (oVal a.company_name)) from rfl,
      show getVal (mapNorm (dumpA a)) "address_line1"
        = some (Val.vstr (pyUpper (pyStrip a.address_line1))) from rfl,
      show getVal (mapNorm (dumpA a)) "address_line2"
        = some (normV "address_line2" (oVal a.address_line2)) from rfl,
      show getVal (mapNorm (dumpA a)) "address_line3"
        = some (normV "address_line3" (oVal a.address_line3)) from rfl,
      show getVal (mapNorm (dumpA a)) "city_locality"
        = some (Val.vstr (pyUpper (pyStrip a.city_locality))) from rfl,
      show getVal (mapNorm (dumpA a)) "state_province"
        = some (Val.vstr (pyUpper (pyStrip a.state_province))) from rfl,
      show getVal (mapNorm (dumpA a)) "postal_code"
        = some (normV "postal_code" (postVal a.postal_code)) from rfl,
      show getVal (mapNorm (dumpA a)) "country_code"
        = some (Val.vstr (pyUpper (pyStrip a.country_code))) from rfl]
  simp only [pOptStr_normV_oVal, pPostal_normV_postVal, pReqStr, pCountry,
             pyUpper_length, h5, h6, h7, h8, if_true]
  rfl

/-- The echo canonicalization of validate_and_store is the identity on every
dumped AddressIn: the parse-time validator has already put the residential
indicator into the closed set, so re-canonicalizing it changes nothing. -/
theorem canonOut_dumpA (a : AddressIn) : canonOut (dumpA a) = dumpA a := by
  obtain ⟨n, p, e, c, l1, l2, l3, cl, sp, pc, cc, x⟩ := a
  cases x <;> rfl

theorem vResultOf_good (a : AddressIn) (h : GoodA a) :
    vResultOf? a = some ⟨(statusAndMessages a).1, canonOut (dumpA a), _normalize (dumpA a),
                         (statusAndMessages a).2⟩ := by
  obtain ⟨h1, h2, h3, h4, h5, h6, h7, h8⟩ := h
  have hc : parseA (canonOut (dumpA a)) = some a := by
    rw [canonOut_dumpA]
    exact parseA_dumpA a h1 h2 h3 h4
  obtain ⟨m, hm⟩ := Option.isSome_iff_exists.mp (parseA_normalize_isSome a h5 h6 h7 h8)
  unfold vResultOf?
  rw [hc, hm]

theorem mapM_option_length {α β : Type} (f : α → Option β) :
    ∀ (l : List α) (bs : List β), l.mapM f = some bs → bs.length = l.length := by
  intro l
  induction l with
  | nil =>
    intro bs h
    simp only [List.mapM_nil, pure, Option.some.injEq] at h
    subst h
    rfl
  | cons a t ih =>
    intro bs h
    rw [List.mapM_cons] at h
    cases hfa : f a with
    | none =>
      rw [hfa] at h
      simp at h
    | some b =>
      rw [hfa] at h
      cases hmt : t.mapM f with
      | none =>
        rw [hmt] at h
        simp at h
      | some bs' =>
        rw [hmt] at h
        simp only [bind, Option.bind_eq_bind, Option.some_bind, pure, Option.some.injEq] at h
        rw [← h]
        simp [ih bs' hmt]

/-! ### The synchronous validation create (claims C7 and C9) -/

theorem vLoop_good (P : List AddressIn) (h : ∀ a ∈ P, GoodA a) :
    vLoop P = some (P.map vItemOf,
      P.map (fun a => ⟨(statusAndMessages a).1, canonOut (dumpA a), _normalize (dumpA a),
                       (statusAndMessages a).2⟩)) := by
  induction P with
  | nil => rfl
  | cons a t ih =>
    have ha := vResultOf_good a (h a (List.mem_cons_self a t))
    have ht := ih (fun b hb => h b (List.mem_cons_of_mem a hb))
    simp [vLoop, ha, ht]

theorem vResultOf_original (a : AddressIn) (res : AddressValidationResultOut)
    (h : vResultOf? a = some res) :
    res.original_address = canonOut (dumpA a) := by
  unfold vResultOf? at h
  cases h1 : parseA (canonOut (dumpA a)) with
  | none =>
    rw [h1] at h
    exact absurd h (by simp)
  | some o =>
    cases h2 : parseA (_normalize (dumpA a)) with
    | none =>
      rw [h1, h2] at h
      exact absurd h (by simp)
    | some m =>
      rw [h1, h2] at h
      simp only [Option.some.injEq] at h
      rw [← h]

theorem vLoop_origs :
    ∀ (P : List AddressIn) (its : List AddressValidationItem)
      (rs : List AddressValidationResultOut), vLoop P = some (its, rs) →
      rs.map AddressValidationResultOut.original_address
        = its.map AddressValidationItem.original_address := by
  intro P
  induction P with
  | nil =>
    intro its rs h
    simp only [vLoop, Option.some.injEq, Prod.ext_iff] at h
    obtain ⟨h1, h2⟩ := h
    rw [← h1, ← h2]
    rfl
  | cons a t ih =>
    intro its rs h
    unfold vLoop at h
    cases hra : vResultOf? a with
    | none =>
      rw [hra] at h
      exact absurd h (by simp)
    | some res =>
      rw [hra] at h
      cases hlt : vLoop t with
      | none =>
        rw [hlt] at h
        exact absurd h (by simp)
      | some pr =>
        obtain ⟨its0, rs0⟩ := pr
        rw [hlt] at h
        simp only [Option.some.injEq, Prod.ext_iff] at h
        obtain ⟨h1, h2⟩ := h
        rw [← h1, ← h2]
        simp only [List.map_cons]
        rw [vResultOf_original a res hra, canonOut_dumpA, ih its0 rs0 hlt]
        rfl

/-- C7 (amended): for payloads whose records still satisfy the address
schema after normalization (GoodA: nonblank required fields before and
after trimming, a country code that keeps two characters after trimming),
the synchronous validation create persists exactly one completed batch whose
payload is the dumped input, with exactly one item per record in input
order, and returns exactly one result per record in input order.  The
synchronous recognition create behaves this way only for the empty payload:
for nonempty payloads it raises (see the counterexample). -/
theorem C7_amended_sync_create :
    (∀ P : List AddressIn, (∀ a ∈ P, GoodA a) →
        validate_and_store P
          = Except.ok (⟨BStatus.completed, some (P.map dumpA)⟩, P.map vItemOf,
              P.map (fun a => ⟨(statusAndMessages a).1, canonOut (dumpA a),
                               _normalize (dumpA a), (statusAndMessages a).2⟩)))
    ∧ recognize_and_store [] = Except.ok (⟨BStatus.completed, some []⟩, [], []) := by
  constructor
  · intro P h
    unfold validate_and_store
    rw [vLoop_good P h]
  · rfl

/-- C7 witness: the amended create theorem evaluated on the one-record
payload with the concrete good address. -/
theorem C7_amended_sync_create_witness :
    validate_and_store [gAddr]
      = Except.ok (⟨BStatus.completed, some [dumpA gAddr]⟩, [vItemOf gAddr],
          [⟨(statusAndMessages gAddr).1, canonOut (dumpA gAddr), _normalize (dumpA gAddr),
            (statusAndMessages gAddr).2⟩]) :=
  C7_amended_sync_create.1 [gAddr] (by
    intro a ha
    rw [List.mem_singleton] at ha
    subst ha
    unfold GoodA
    decide)

/-- C7 counterexample: the synchronous recognition create raises on every
nonempty payload; at the concrete one-record payload (text x, no known
values) the response rebuild through the full address schema fails, the
transaction never commits, and the caller gets an error instead of a
completed batch with one item and one ordered result. -/
theorem C7_counterexample_recognize_raises :
    recognize_and_store [⟨pys "x", none⟩] = Except.error () := rfl

/-- C9 counterexample: at the concrete raw submission whose indicator is
the string with spaces and capitals around yes — the kind of input the
claim says makes the response differ from the stored item — the
canonicalization already happened at parse time (parseA yields the model
with the canonical indicator), and the synchronous create then returns an
original_address identical to the one it persists: both are the parsed
record's dump.  So the claimed divergence between the returned and the
stored original does not occur at this input (the amended theorem shows it
never occurs). -/
theorem C9_counterexample_echo_equals_stored_concrete :
    parseA rawYes = some yAddr
    ∧ (validate_and_store [yAddr]).toOption.map
        (fun out => out.2.2.map AddressValidationResultOut.original_address)
      = some [dumpA yAddr]
    ∧ (validate_and_store [yAddr]).toOption.map
        (fun out => out.2.1.map AddressValidationItem.original_address)
      = some [dumpA yAddr] := ⟨rfl, rfl, rfl⟩

/-- C9 (amended): in every successful synchronous validation response the
echoed original_address of each result equals the original_address stored on
the corresponding item, in order: the canonicalization block is dead code on
parsed inputs, and any canonicalization of the submitted value happened at
input parsing, before validate_and_store ran. -/
theorem C9_amended_echo_equals_stored :
    ∀ (P : List AddressIn) (b : Batch) (its : List AddressValidationItem)
      (rs : List AddressValidationResultOut),
      validate_and_store P = Except.ok (b, its, rs) →
      rs.map AddressValidationResultOut.original_address
        = its.map AddressValidationItem.original_address := by
  intro P b its rs h
  unfold validate_and_store at h
  cases hl : vLoop P with
  | none =>
    rw [hl] at h
    exact absurd h (by simp)
  | some pr =>
    obtain ⟨its', rs'⟩ := pr
    rw [hl] at h
    simp only [Except.ok.injEq, Prod.ext_iff] at h
    obtain ⟨_, h2, h3⟩ := h
    rw [← h2, ← h3]
    exact vLoop_origs P its' rs' hl

/-- C9 witness: the amended theorem evaluated on the one-record payload with
the concrete good address. -/
theorem C9_amended_echo_equals_stored_witness :
    ([⟨(statusAndMessages gAddr).1, canonOut (dumpA gAddr), _normalize (dumpA gAddr),
       (statusAndMessages gAddr).2⟩] : List AddressValidationResultOut).map
        AddressValidationResultOut.original_address
      = ([vItemOf gAddr] : List AddressValidationItem).map
          AddressValidationItem.original_address :=
  C9_amended_echo_equals_stored [gAddr] ⟨BStatus.completed, some [dumpA gAddr]⟩
    [vItemOf gAddr]
    [⟨(statusAndMessages gAddr).1, canonOut (dumpA gAddr), _normalize (dumpA gAddr),
      (statusAndMessages gAddr).2⟩] (by rfl)

/-! ### The Process state machine (claims C1, C2, C4) -/

/-- C1 (amended): the idempotency guard as the code implements it.  The
recognition Process is a no-op (no commit, no exception) when the status is
processing, or completed with at least one item.  The validation Process is
a no-op (one commit that changes nothing) when the status is completed and
at least one item exists; it has no guard for the processing status, so a
batch stored as processing is re-processed there (see the counterexample). -/
theorem C1_amended_idempotency_guard :
    (∀ (b : Batch) (items : List AddressValidationItem),
        b.status = BStatus.completed → items ≠ [] →
        vProcessCommits (some b, items) = ([(some b, items)], false))
    ∧ (∀ (b : Batch) (items : List AddressRecognitionItem),
        b.status = BStatus.processing ∨ (b.status = BStatus.completed ∧ items ≠ []) →
        rProcessCommits (some b, items) = ([], false)) := by
  constructor
  · intro b items hs hi
    have hne : items.isEmpty = false := by
      cases items
      · exact absurd rfl hi
      · rfl
    simp [vProcessCommits, hs, hne]
  · intro b items hd
    have hs : b.status = BStatus.processing ∨ b.status = BStatus.completed := by
      rcases hd with h | ⟨h, _⟩
      · exact Or.inl h
      · exact Or.inr h
    simp only [rProcessCommits]
    rw [if_pos hs]

/-- C1 witness: the guard evaluated on a completed validation batch with one
item and on a processing recognition batch. -/
theorem C1_amended_idempotency_guard_witness :
    vProcessCommits (some ⟨BStatus.completed, some []⟩, [⟨"verified", [], [], []⟩])
      = ([(some ⟨BStatus.completed, some []⟩, [⟨"verified", [], [], []⟩])], false)
    ∧ rProcessCommits (some ⟨BStatus.processing, some []⟩,
        ([] : List AddressRecognitionItem)) = ([], false) :=
  ⟨C1_amended_idempotency_guard.1 ⟨BStatus.completed, some []⟩
      [⟨"verified", [], [], []⟩] rfl (by simp),
   C1_amended_idempotency_guard.2 ⟨BStatus.processing, some []⟩ [] (Or.inl rfl)⟩

/-- C1 counterexample: a validation batch stored with status processing is
not left alone by Process: with an empty payload it is committed as failed,
so the claimed no-op for the processing status fails on the validation
pipeline. -/
theorem C1_counterexample_processing_reprocessed :
    vProcessCommits (some ⟨BStatus.processing, some []⟩, [])
      = ([(some ⟨BStatus.failed, some []⟩, [])], false)
    ∧ BStatus.failed ≠ BStatus.processing := ⟨rfl, by decide⟩

/-- C2 (amended): every committed snapshot of either Process preserves the
reader-observable invariant that a batch's item set is empty or exactly one
item per record of its current payload under the pipeline's parse and
normalization.  The validation Process additionally commits exactly once on
success and not at all on an exception, so its status change, item deletion
and item insertion are one atomic unit; the recognition Process commits the
processing status in a separate earlier unit (see the counterexample). -/
theorem C2_amended_atomic_visibility :
    (∀ db : VDB, vInv db →
        (∀ s ∈ (vProcessCommits db).1, vInv s)
        ∧ ((vProcessCommits db).2 = false → (vProcessCommits db).1.length = 1)
        ∧ ((vProcessCommits db).2 = true → (vProcessCommits db).1 = []))
    ∧ (∀ db : RDB, rInv db → ∀ s ∈ (rProcessCommits db).1, rInv s) := by
  constructor
  · rintro ⟨b?, items⟩ hinv
    cases b? with
    | none =>
      refine ⟨?_, fun _ => rfl, fun h => absurd h (by simp [vProcessCommits])⟩
      intro s hs
      simp only [vProcessCommits, List.mem_singleton] at hs
      rw [hs]
      exact hinv
    | some b =>
      by_cases hg : b.status = BStatus.completed ∧ items.isEmpty = false
      · have he : vProcessCommits (some b, items) = ([(some b, items)], false) := by
          simp [vProcessCommits, hg]
        rw [he]
        refine ⟨?_, fun _ => rfl, fun h => by simp at h⟩
        intro s hs
        simp only [List.mem_singleton] at hs
        rw [hs]
        exact hinv
      · by_cases hp : (b.payload.getD []).isEmpty
        · have he : vProcessCommits (some b, items)
              = ([(some { b with status := BStatus.failed }, items)], false) := by
            simp only [vProcessCommits]
            rw [if_neg hg, if_pos hp]
          rw [he]
          refine ⟨?_, fun _ => rfl, fun h => by simp at h⟩
          intro s hs
          simp only [List.mem_singleton] at hs
          rw [hs]
          exact hinv
        · cases hm : parseAllA (b.payload.getD []) with
          | none =>
            have he : vProcessCommits (some b, items) = ([], true) := by
              simp only [vProcessCommits]
              rw [if_neg hg, if_neg hp, hm]
            rw [he]
            exact ⟨fun s hs => absurd hs (by simp), fun h => by simp at h, fun _ => rfl⟩
          | some as =>
            have he : vProcessCommits (some b, items)
                = ([(some { b with status := BStatus.completed }, as.map vItemOf)], false) := by
              simp only [vProcessCommits]
              rw [if_neg hg, if_neg hp, hm]
            rw [he]
            refine ⟨?_, fun _ => rfl, fun h => by simp at h⟩
            intro s hs
            simp only [List.mem_singleton] at hs
            rw [hs]
            exact Or.inr ⟨as, hm, rfl⟩
  · rintro ⟨b?, items⟩ hinv
    cases b? with
    | none =>
      intro s hs
      exact absurd hs (by simp [rProcessCommits])
    | some b =>
      by_cases hs0 : b.status = BStatus.processing ∨ b.status = BStatus.completed
      · have he : rProcessCommits (some b, items) = ([], false) := by
          simp only [rProcessCommits]
          rw [if_pos hs0]
        rw [he]
        intro s hs
        exact absurd hs (by simp)
      · by_cases hp : (b.payload.getD []).isEmpty
        · have he : rProcessCommits (some b, items)
              = ([(some { b with status := BStatus.failed }, items)], false) := by
            simp only [rProcessCommits]
            rw [if_neg hs0, if_pos hp]
          rw [he]
          intro s hs
          simp only [List.mem_singleton] at hs
          rw [hs]
          exact hinv
        · cases hm : parseAllR (b.payload.getD []) with
          | none =>
            have he : rProcessCommits (some b, items)
                = ([(some { b with status := BStatus.processing }, items)], true) := by
              simp only [rProcessCommits]
              rw [if_neg hs0, if_neg hp, hm]
            rw [he]
            intro s hs
            simp only [List.mem_singleton] at hs
            rw [hs]
            exact hinv
          | some as =>
            have he : rProcessCommits (some b, items)
                = ([(some { b with status := BStatus.processing }, items),
                    (some { b with status := BStatus.completed }, as.map rItemOf)], false) := by
              simp only [rProcessCommits]
              rw [if_neg hs0, if_neg hp, hm]
            rw [he]
            intro s hs
            simp only [List.mem_cons, List.not_mem_nil, or_false] at hs
            rcases hs with hs | hs
            · rw [hs]
              exact hinv
            · rw [hs]
              exact Or.inr ⟨as, hm, rfl⟩

/-- C2 witness: the invariant preservation evaluated on a queued validation
batch with an empty payload (committed as failed, one commit) and on the
corresponding recognition batch. -/
theorem C2_amended_atomic_visibility_witness :
    ((∀ s ∈ (vProcessCommits (some ⟨BStatus.queued, some []⟩, [])).1, vInv s)
      ∧ ((vProcessCommits (some ⟨BStatus.queued, some []⟩, [])).2 = false →
          (vProcessCommits (some ⟨BStatus.queued, some []⟩, [])).1.length = 1)
      ∧ ((vProcessCommits (some ⟨BStatus.queued, some []⟩, [])).2 = true →
          (vProcessCommits (some ⟨BStatus.queued, some []⟩, [])).1 = []))
    ∧ (∀ s ∈ (rProcessCommits (some ⟨BStatus.queued, some []⟩, [])).1, rInv s) :=
  ⟨C2_amended_atomic_visibility.1 (some ⟨BStatus.queued, some []⟩, []) (Or.inl rfl),
   C2_amended_atomic_visibility.2 (some ⟨BStatus.queued, some []⟩, []) (Or.inl rfl)⟩

/-- C2 counterexample: the recognition Process on a queued one-record batch
produces two committed snapshots — first the processing status with the old
items, then the delete plus inserts plus completed status — so its status
change and item insertion are not one atomic unit of work. -/
theorem C2_counterexample_two_commits :
    rProcessCommits (some ⟨BStatus.queued, some [xEntry]⟩, ([] : List AddressRecognitionItem))
      = ([(some ⟨BStatus.processing, some [xEntry]⟩, []),
          (some ⟨BStatus.completed, some [xEntry]⟩,
           [⟨"completed", [], [(ariKey, Val.vstr uStr)]⟩])], false)
    ∧ BStatus.processing ≠ BStatus.completed := ⟨rfl, by decide⟩

/-- C4 (amended): a stored payload that fails to parse makes the validation
Process raise out of the worker job: its single transaction rolls back (no
commit at all), the batch keeps its prior status instead of being marked
failed, and the exception escapes validate_addresses_batch. -/
theorem C4_amended_malformed_payload_raises :
    ∀ (b : Batch) (items : List AddressValidationItem),
      ¬ (b.status = BStatus.completed ∧ items.isEmpty = false) →
      (b.payload.getD []).isEmpty = false →
      parseAllA (b.payload.getD []) = none →
      validate_addresses_batch (some b, items) = ([], true)
      ∧ finalVDB (some b, items) (validate_addresses_batch (some b, items))
          = (some b, items) := by
  intro b items hg hp hm
  have he : vProcessCommits (some b, items) = ([], true) := by
    simp only [vProcessCommits]
    rw [if_neg hg, if_neg (by rw [hp]; exact Bool.false_ne_true), hm]
  refine ⟨he, ?_⟩
  show finalVDB _ (vProcessCommits _) = _
  rw [he]
  rfl

/-- C4 witness: the raise evaluated on a queued batch whose stored payload
is one empty record (missing the required fields). -/
theorem C4_amended_malformed_payload_raises_witness :
    validate_addresses_batch (some ⟨BStatus.queued, some [[]]⟩, []) = ([], true)
    ∧ finalVDB (some ⟨BStatus.queued, some [[]]⟩, [])
        (validate_addresses_batch (some ⟨BStatus.queued, some [[]]⟩, []))
        = (some ⟨BStatus.queued, some [[]]⟩, []) :=
  C4_amended_malformed_payload_raises ⟨BStatus.queued, some [[]]⟩ []
    (by decide) rfl rfl

/-- C4 counterexample: on the queued batch whose payload is one empty
record, the worker job raises (error flag true) and commits nothing, so the
batch stays queued — it is not marked failed and the job does not return
normally, contrary to the claim. -/
theorem C4_counterexample_queued_not_failed :
    validate_addresses_batch (some ⟨BStatus.queued, some [[]]⟩, []) = ([], true)
    ∧ (validate_addresses_batch (some ⟨BStatus.queued, some [[]]⟩, [])).1 = []
    ∧ BStatus.queued ≠ BStatus.failed := ⟨rfl, rfl, by decide⟩

/-! ### Concurrency (claim C5) and requeue (claims C6, C10) -/

/-- C5 (amended): the validation Process body is one transaction whose
first statement takes the exclusive row lock, so two concurrent calls for
the same batch id execute one after the other.  Run sequentially from a
queued batch with a parseable nonempty payload, the first call performs the
only item-generation pass, committing exactly the parsed payload's items
(item count equal to the payload length, one item per record in order), and
the second call takes the completed-with-items idempotency no-op path.  The
recognition Process takes no row lock; the counterexample interleaves two
unlocked workers into a duplicated item set. -/
theorem C5_amended_lock_serializes_validation :
    ∀ (b : Batch) (pl : List Record) (as : List AddressIn)
      (items0 : List AddressValidationItem),
      b.status = BStatus.queued → b.payload = some pl → pl.isEmpty = false →
      parseAllA pl = some as →
      vProcessCommits (some b, items0)
        = ([(some { b with status := BStatus.completed }, as.map vItemOf)], false)
      ∧ (as.map vItemOf).length = pl.length
      ∧ vProcessCommits (some { b with status := BStatus.completed }, as.map vItemOf)
        = ([(some { b with status := BStatus.completed }, as.map vItemOf)], false) := by
  intro b pl as items0 hs hpl hne hm
  have hpd : b.payload.getD [] = pl := by
    rw [hpl]
    rfl
  have hlen : as.length = pl.length := mapM_option_length parseA pl as hm
  have hplne : pl ≠ [] := by
    intro h
    rw [h] at hne
    exact absurd hne (by simp)
  have hane : (as.map vItemOf).isEmpty = false := by
    cases as with
    | nil => exact absurd (List.length_eq_zero.mp hlen.symm) hplne
    | cons a t => rfl
  have hg : ¬ (b.status = BStatus.completed ∧ items0.isEmpty = false) := by
    rw [hs]
    rintro ⟨h, _⟩
    exact absurd h (by decide)
  refine ⟨?_, ?_, ?_⟩
  · simp only [vProcessCommits]
    rw [if_neg hg, hpd, if_neg (by rw [hne]; exact Bool.false_ne_true), hm]
  · simp [hlen]
  · simp only [vProcessCommits]
    simp [hane]

/-- C5 witness: the sequential double run evaluated on a queued batch whose
payload is the dump of the concrete good address. -/
theorem C5_amended_lock_serializes_validation_witness :
    vProcessCommits (some ⟨BStatus.queued, some [dumpA gAddr]⟩, [])
      = ([(some ⟨BStatus.completed, some [dumpA gAddr]⟩, [vItemOf gAddr])], false)
    ∧ ([gAddr].map vItemOf).length = [dumpA gAddr].length
    ∧ vProcessCommits (some ⟨BStatus.completed, some [dumpA gAddr]⟩, [gAddr].map vItemOf)
      = ([(some ⟨BStatus.completed, some [dumpA gAddr]⟩, [vItemOf gAddr])], false) :=
  C5_amended_lock_serializes_validation ⟨BStatus.queued, some [dumpA gAddr]⟩
    [dumpA gAddr] [gAddr] [] rfl rfl rfl rfl

/-- C5 counterexample: the recognition Process reads its batch without any
lock and commits the processing status separately, so two workers that both
read the queued status before either commits both run the item-generation
pass: on a one-record payload the final committed state holds two items,
not one — the claimed single generation pass and final count fail for the
recognition pipeline. -/
theorem C5_counterexample_recognition_race :
    (runSched raceSched sys0).shared.items.length = 2
    ∧ sys0.shared.payload.length = 1
    ∧ (runSched raceSched sys0).shared.status = BStatus.completed
    ∧ (2 : Nat) ≠ 1 := ⟨rfl, rfl, rfl, by decide⟩

/-- C6: requeue on a batch whose status is processing raises the conflict
error, the endpoint surfaces it as 409 (distinct from the 404 not-found
outcome), no dispatch is sent, and the committed state — the batch row with
its status and payload, and the item set — is exactly the input state. -/
theorem C6_requeue_processing_conflict :
    ∀ (b : Batch) (items : List AddressValidationItem),
      b.status = BStatus.processing →
      requeue_endpoint (some b, items) = (HttpOutcome.conflict409, (some b, items), false)
      ∧ HttpOutcome.conflict409 ≠ HttpOutcome.notFound404 := by
  intro b items h
  refine ⟨?_, by decide⟩
  simp only [requeue_endpoint, requeue_batch]
  rw [if_pos h]

/-- C6 witness: the conflict evaluated on a processing batch with a null
payload and no items. -/
theorem C6_requeue_processing_conflict_witness :
    requeue_endpoint (some ⟨BStatus.processing, none⟩, ([] : List AddressValidationItem))
      = (HttpOutcome.conflict409, (some ⟨BStatus.processing, none⟩, []), false)
    ∧ HttpOutcome.conflict409 ≠ HttpOutcome.notFound404 :=
  C6_requeue_processing_conflict ⟨BStatus.processing, none⟩ [] rfl

/-- C10: requeue returns False both for an unknown batch id and for an
existing non-processing batch with an empty stored payload; in the second
case it also commits the failed status.  The endpoint cannot tell the two
False returns apart: both become the 404 not-found outcome with no
dispatch, even though in the second case the batch exists and was just
marked failed. -/
theorem C10_requeue_false_is_notfound :
    (∀ items : List AddressValidationItem,
        requeue_batch (none, items) = (ReqRes.retFalse, (none, items))
        ∧ requeue_endpoint (none, items) = (HttpOutcome.notFound404, (none, items), false))
    ∧ (∀ (b : Batch) (items : List AddressValidationItem),
        b.status ≠ BStatus.processing → (b.payload.getD []).isEmpty = true →
        requeue_batch (some b, items)
          = (ReqRes.retFalse, (some { b with status := BStatus.failed }, items))
        ∧ requeue_endpoint (some b, items)
          = (HttpOutcome.notFound404, (some { b with status := BStatus.failed }, items),
             false)) := by
  constructor
  · intro items
    exact ⟨rfl, rfl⟩
  · intro b items hs hp
    have h1 : requeue_batch (some b, items)
        = (ReqRes.retFalse, (some { b with status := BStatus.failed }, items)) := by
      simp only [requeue_batch]
      rw [if_neg hs, if_pos hp]
    refine ⟨h1, ?_⟩
    simp only [requeue_endpoint]
    rw [h1]

/-- C10 witness: the two not-found paths evaluated on the missing batch and
on a queued batch with a null payload. -/
theorem C10_requeue_false_is_notfound_witness :
    (requeue_batch ((none : Option Batch), ([] : List AddressValidationItem))
        = (ReqRes.retFalse, (none, []))
      ∧ requeue_endpoint (none, [])
        = (HttpOutcome.notFound404, (none, []), false))
    ∧ (requeue_batch (some ⟨BStatus.queued, none⟩, ([] : List AddressValidationItem))
        = (ReqRes.retFalse, (some ⟨BStatus.failed, none⟩, []))
      ∧ requeue_endpoint (some ⟨BStatus.queued, none⟩, [])
        = (HttpOutcome.notFound404, (some ⟨BStatus.failed, none⟩, []), false)) :=
  ⟨C10_requeue_false_is_notfound.1 [],
   C10_requeue_false_is_notfound.2 ⟨BStatus.queued, none⟩ [] (by decide) rfl⟩
